import Mathlib

/-!
Shallow embedding of src/entrypoint.py, the single source file of
OpenSiFli/SiFliMirrorSync: a CI helper that stages glob-matched build
artifacts into a temporary directory, uploads them with the coscmd CLI
(regional endpoint first, one retry against the global accelerate
endpoint), and optionally purges a CDN path with tccli.

Modelling conventions:
* Filesystem paths are lists of components (List String).  The Python
  resolve() plus glob machinery is abstracted by letting a glob oracle
  return already-resolved absolute paths, and relative_to(cwd) succeeds
  exactly when cwd is a component-prefix (symlinks and dot-dot segments
  are not modelled).
* The on-disk filesystem and the staging tree are finite association
  lists from paths to entries (regular file with content, or directory);
  lookup returns the first binding, and updates shadow by consing.
* error(...) followed by sys.exit(1) is modelled with Except String or
  Option; external process invocations (coscmd config, coscmd upload,
  tccli) are recorded in an ordered command trace, their exit statuses
  supplied by boolean oracles.  Successful file or directory copies into
  the staging tree are recorded as staging events, mirroring the log
  calls that accompany each copy.
-/

/-- Python str.split(sep) for a one-character separator, over the
character list: splitting the empty string gives one empty piece. -/
def splitOnChar (c : Char) : List Char → List (List Char)
  | [] => [[]]
  | x :: xs =>
    let r := splitOnChar c xs
    if x = c then [] :: r
    else
      match r with
      | [] => [[x]]
      | y :: ys => (x :: y) :: ys

/-- The whitespace characters Python str.strip removes. -/
def isPySpace (ch : Char) : Bool :=
  ch = ' ' ∨ ch = '\t' ∨ ch = '\n' ∨ ch = '\r' ∨ ch = '\x0b' ∨ ch = '\x0c'

/-- Python str.strip(): drop leading and trailing whitespace. -/
def pyStrip (s : String) : String :=
  ⟨((s.data.dropWhile isPySpace).reverse.dropWhile isPySpace).reverse⟩

/-- Python str.lower() (ASCII case folding). -/
def pyLower (s : String) : String :=
  ⟨s.data.map Char.toLower⟩

/-- Python str.upper() (ASCII case folding). -/
def pyUpper (s : String) : String :=
  ⟨s.data.map Char.toUpper⟩

/-- Python str.split(sep) as a String-level operation. -/
def pySplit (s : String) (c : Char) : List String :=
  (splitOnChar c s.data).map (fun l => ⟨l⟩)

/-- A filesystem entry: a regular file with its content, or a directory. -/
inductive Entry
  | file (content : String)
  | dir
  deriving DecidableEq

/-- A finite filesystem (or staging tree): bindings from absolute
(resp. staging-relative) component paths to entries. -/
abbrev FileSys := List (List String × Entry)

/-- A staging tree uses the same representation as a filesystem. -/
abbrev Staging := FileSys

/-- First-binding lookup in a filesystem or staging tree. -/
def lookupFS : FileSys → List String → Option Entry
  | [], _ => none
  | (r, e) :: rest, q => if r = q then some e else lookupFS rest q

/-- One external process invocation: argv plus extra environment variables
explicitly set for it (entrypoint.py run_cmd / the tccli env copy). -/
structure Invocation where
  argv : List String
  extraEnv : List (String × String)
  deriving DecidableEq

/-- A successful copy into the staging tree, mirroring the
"Staging file"/"Staging directory" log lines of stage_paths. -/
inductive StageEv
  | stagedFile (rel : List String)
  | stagedDir (rel : List String)
  deriving DecidableEq

/-- parse_bool (entrypoint.py lines 31-38): strip and lowercase, accept
the truthy and falsy token sets, anything else is a fatal error. -/
def parse_bool (val : String) : Except String Bool :=
  let normalized := pyLower (pyStrip val)
  if normalized ∈ ["true", "1", "yes", "y"] then Except.ok true
  else if normalized ∈ ["false", "0", "no", "n", ""] then Except.ok false
  else Except.error ("Invalid boolean value for delete_remote: " ++ val)

/-- normalize_prefix (entrypoint.py lines 41-42): append a trailing slash
unless one is already present.  Python str.endswith("/") is rendered as
the last character being the slash. -/
def normalizePfx (p : String) : String :=
  if p.data.getLast? = some '/' then p else p ++ "/"

/-- split_patterns (entrypoint.py lines 45-52): split on commas, then on
line breaks (str.splitlines is rendered as splitting on the newline
character), strip each piece and keep the non-empty ones, in order. -/
def split_patterns (raw : String) : List String :=
  ((pySplit raw ',').flatMap (fun token => pySplit token '\n')).filterMap
    (fun line => let cleaned := pyStrip line; if cleaned = "" then none else some cleaned)

/-- get_input (entrypoint.py lines 21-28): read INPUT_<NAME> from the
environment (empty string when unset), fall back to the default when the
value is empty and a default exists, and fail when a required value is
still empty. -/
def get_input (env : String → String) (name : String) (required : Bool)
    (default : Option String) : Except String String :=
  let val := env ("INPUT_" ++ pyUpper name)
  let val := if val = "" then (match default with | some d => d | none => val) else val
  if required ∧ val = "" then Except.error ("Missing required input: " ++ name)
  else Except.ok val

/-- resolve_paths (entrypoint.py lines 55-62): expand each pattern through
the glob oracle, failing fast on the first pattern with zero matches, and
concatenate the matches in pattern order. -/
def resolve_paths (globFn : String → List (List String)) :
    List String → Except String (List (List String))
  | [] => Except.ok []
  | pat :: rest =>
    let matchList := globFn pat
    if matchList = [] then Except.error ("No files matched pattern: " ++ pat)
    else
      match resolve_paths globFn rest with
      | Except.error e => Except.error e
      | Except.ok restPaths => Except.ok (matchList ++ restPaths)

/-- Path.relative_to: succeeds exactly when cwd is a component-prefix of
the absolute path, returning the remaining components. -/
def relativeTo (absSrc cwd : List String) : Option (List String) :=
  if cwd.isPrefixOf absSrc then some (absSrc.drop cwd.length) else none

/-- The strict ancestors of a staging-relative path, shortest first:
the directories dest.parent.mkdir(parents=True) would create. -/
def properPrefixes (p : List String) : List (List String) :=
  (List.range p.length).map (fun n => p.take n)

/-- dest.parent.mkdir(parents=True, exist_ok=True): create each missing
ancestor as a directory; an ancestor already present as a file raises
FileExistsError. -/
def mkdirList (st : Staging) : List (List String) → Except String Staging
  | [] => Except.ok st
  | q :: qs =>
    match lookupFS st q with
    | some (Entry.file _) => Except.error "FileExistsError: mkdir over staged file"
    | some Entry.dir => mkdirList st qs
    | none => mkdirList ((q, Entry.dir) :: st) qs

/-- The bindings of the subtree rooted at src, re-rooted at the staging
destination rel: what shutil.copytree walks over. -/
def subtreeOf (fs : FileSys) (src rel : List String) : List (List String × Entry) :=
  (fs.filter (fun pe => src.isPrefixOf pe.1)).map
    (fun pe => (rel ++ pe.1.drop src.length, pe.2))

/-- One entry of the shutil.copytree(..., dirs_exist_ok=True) merge: a
new binding is added, a file over an existing file is overwritten, a
directory over an existing directory is kept, and a file/directory type
clash raises. -/
def copyOne (st : Staging) (q : List String) (e : Entry) : Except String Staging :=
  match lookupFS st q with
  | none => Except.ok ((q, e) :: st)
  | some (Entry.file _) =>
    match e with
    | Entry.file c => Except.ok ((q, Entry.file c) :: st)
    | Entry.dir => Except.error "FileExistsError in copytree"
  | some Entry.dir =>
    match e with
    | Entry.file _ => Except.error "IsADirectoryError in copytree"
    | Entry.dir => Except.ok st

/-- shutil.copytree(..., dirs_exist_ok=True): merge the walked subtree
bindings into the staging tree one by one, stopping at the first
raised error. -/
def copyMerge (st : Staging) : List (List String × Entry) → Except String Staging
  | [] => Except.ok st
  | qe :: rest =>
    match copyOne st qe.1 qe.2 with
    | Except.error er => Except.error er
    | Except.ok st2 => copyMerge st2 rest

/-- One iteration of the stage_paths loop (entrypoint.py lines 67-91) for
a single resolved absolute path: compute the workspace-relative path,
then copy a directory (collision check against a staged file, mkdir of
the parents, copytree merge) or a file (skip when already staged as a
file, collision when staged as a directory, otherwise mkdir parents and
copy), or fail when the path is neither. -/
def stageOne (fs : FileSys) (cwd : List String) (src : List String) (st : Staging) :
    Except String (Staging × List StageEv) :=
  match relativeTo src cwd with
  | none => Except.error "Path must be within workspace"
  | some rel =>
    match lookupFS fs src with
    | some Entry.dir =>
      match lookupFS st rel with
      | some (Entry.file _) =>
        Except.error "Collision while staging directory (file already staged here)"
      | _ =>
        match mkdirList st (properPrefixes rel) with
        | Except.error e => Except.error e
        | Except.ok st1 =>
          match copyMerge st1 (subtreeOf fs src rel) with
          | Except.error e => Except.error e
          | Except.ok st2 => Except.ok (st2, [StageEv.stagedDir rel])
    | some (Entry.file c) =>
      match lookupFS st rel with
      | some (Entry.file _) => Except.ok (st, [])
      | some Entry.dir =>
        Except.error "Collision while staging file (directory already staged here)"
      | none =>
        match mkdirList st (properPrefixes rel) with
        | Except.error e => Except.error e
        | Except.ok st1 => Except.ok ((rel, Entry.file c) :: st1, [StageEv.stagedFile rel])
    | none => Except.error "Path is neither file nor directory"

/-- Result of stage_paths: the staging events that happened (up to the
first error, if any) and the final staging tree or the fatal error. -/
structure StageResult where
  events : List StageEv
  result : Except String Staging

/-- stage_paths (entrypoint.py lines 65-91): fold stageOne over the
resolved paths, stopping at the first fatal error. -/
def stagePaths (fs : FileSys) (cwd : List String) :
    List (List String) → Staging → StageResult
  | [], st => ⟨[], Except.ok st⟩
  | p :: rest, st =>
    match stageOne fs cwd p st with
    | Except.error e => ⟨[], Except.error e⟩
    | Except.ok pr =>
      let r := stagePaths fs cwd rest pr.1
      ⟨pr.2 ++ r.events, r.result⟩

/-- configure_coscmd (entrypoint.py lines 99-111): argv of the coscmd
config invocation, with the accelerate endpoint and relaxed retry and
timeout in accelerate mode, the regional endpoint otherwise. -/
def configure_coscmd (secret_id secret_key bucket region : String)
    (accelerate : Bool) : List String :=
  ["coscmd", "config", "-a", secret_id, "-s", secret_key, "-b", bucket] ++
    (if accelerate then ["-e", "cos.accelerate.myqcloud.com", "--retry", "5", "--timeout", "60"]
     else ["-r", region, "--retry", "1", "--timeout", "10", "-m", "1"])

/-- The values main computes before any external command runs: all parsed
inputs, the effective working root, and the glob-resolved source paths. -/
structure Prepared where
  secret_id : String
  secret_key : String
  region : String
  bucket : String
  pfx : String
  flush_url : String
  deleteRemote : Bool
  cwd : List String
  paths : List (List String)
  deriving DecidableEq

/-- The working_directory handling of main (entrypoint.py lines 125-136):
empty (after stripping) keeps the workspace root as the working root;
otherwise the directory is joined onto the root (dot-dot segments and
symlinks are not modelled, so the containment check of line 130 always
passes here) and must exist as a directory. -/
def resolveWorkingDir (fs : FileSys) (root : List String) (wdRaw0 : String) :
    Option (List String) :=
  if pyStrip wdRaw0 = "" then some root
  else
    let wd := root ++ (pySplit (pyStrip wdRaw0) '/').filter (fun s => s != "")
    if lookupFS fs wd = some Entry.dir then some wd else none

/-- The input-reading and path-resolution phase of main (entrypoint.py
lines 115-142), everything that runs before the first external command;
any error() here exits the process before a command or a copy happens. -/
def prepare (env : String → String) (globFn : String → List (List String))
    (fs : FileSys) (root : List String) : Option Prepared :=
  match get_input env "secret_id" true none with
  | Except.error _ => none
  | Except.ok secret_id =>
  match get_input env "secret_key" true none with
  | Except.error _ => none
  | Except.ok secret_key =>
  match get_input env "region" true none with
  | Except.error _ => none
  | Except.ok region =>
  match get_input env "bucket" true none with
  | Except.error _ => none
  | Except.ok bucket =>
  match get_input env "prefix" true none with
  | Except.error _ => none
  | Except.ok pfxRaw =>
  match get_input env "artifacts" true none with
  | Except.error _ => none
  | Except.ok artifacts_raw =>
  match get_input env "flush_url" false (some "") with
  | Except.error _ => none
  | Except.ok flush_url =>
  match get_input env "delete_remote" false (some "false") with
  | Except.error _ => none
  | Except.ok deleteRaw =>
  match parse_bool deleteRaw with
  | Except.error _ => none
  | Except.ok deleteRemote =>
  match get_input env "working_directory" false (some "") with
  | Except.error _ => none
  | Except.ok wdRaw0 =>
  match resolveWorkingDir fs root wdRaw0 with
  | none => none
  | some cwd =>
  let patterns := split_patterns artifacts_raw
  if patterns = [] then none
  else
    match resolve_paths globFn patterns with
    | Except.error _ => none
    | Except.ok paths =>
      some ⟨secret_id, secret_key, region, bucket, normalizePfx pfxRaw,
            flush_url, deleteRemote, cwd, paths⟩

/-- The upload flags of main (entrypoint.py lines 152-154): recursive and
sync, force yes, and the delete flag exactly when delete_remote parsed
to true. -/
def uploadFlags (deleteRemote : Bool) : List String :=
  ["-rs", "--yes"] ++ (if deleteRemote then ["--delete"] else [])

/-- The coscmd upload invocation of main: flags, the staging root as the
local source, and the normalized remote prefix. -/
def uploadInv (ps : Prepared) : Invocation :=
  ⟨["coscmd", "upload"] ++ uploadFlags ps.deleteRemote ++ [".", ps.pfx], []⟩

/-- A coscmd config invocation for the prepared inputs. -/
def configInv (ps : Prepared) (accelerate : Bool) : Invocation :=
  ⟨configure_coscmd ps.secret_id ps.secret_key ps.bucket ps.region accelerate, []⟩

/-- The tccli CDN purge invocation of main (entrypoint.py lines 172-181),
with the credential and region environment variables it sets. -/
def purgeInv (ps : Prepared) : Invocation :=
  ⟨["tccli", "cdn", "PurgePathCache", "--cli-unfold-argument",
    "--Paths", ps.flush_url, "--FlushType", "flush"],
   [("TENCENTCLOUD_SECRET_ID", ps.secret_id),
    ("TENCENTCLOUD_SECRET_KEY", ps.secret_key),
    ("TENCENTCLOUD_REGION", ps.region)]⟩

/-- Observable outcome of one run of main: the process exit code, the
external commands invoked in order, and the staging copies performed.
The temporary staging directory itself is deleted on every exit path, so
it is not part of the outcome. -/
structure RunOutcome where
  exitCode : Nat
  cmds : List Invocation
  staged : List StageEv
  deriving DecidableEq

/-- The purge phase of main (entrypoint.py lines 172-183): skipped
silently when flush_url is empty, otherwise the tccli invocation runs and
a non-zero exit is fatal. -/
def purgePhase (ps : Prepared) (cmds : List Invocation) (evs : List StageEv)
    (purgeOk : Bool) : RunOutcome :=
  if ps.flush_url = "" then ⟨0, cmds, evs⟩
  else if purgeOk then ⟨0, cmds ++ [purgeInv ps], evs⟩
  else ⟨1, cmds ++ [purgeInv ps], evs⟩

/-- main (entrypoint.py lines 114-183).  ok1 and ok2 are the exit-status
oracles of the first (regional) and second (accelerate) coscmd upload,
purgeOk of the tccli purge.  Input or resolution errors exit before any
command; the regional config runs before staging; a staging error exits
with only that config invoked; the upload runs once, is retried exactly
once against the accelerate endpoint on failure, and a second failure is
fatal; then the optional purge runs. -/
def runMain (env : String → String) (globFn : String → List (List String))
    (fs : FileSys) (root : List String) (ok1 ok2 purgeOk : Bool) : RunOutcome :=
  match prepare env globFn fs root with
  | none => ⟨1, [], []⟩
  | some ps =>
    let sr := stagePaths fs ps.cwd ps.paths []
    match sr.result with
    | Except.error _ => ⟨1, [configInv ps false], sr.events⟩
    | Except.ok _ =>
      if ok1 then purgePhase ps [configInv ps false, uploadInv ps] sr.events purgeOk
      else if ok2 then
        purgePhase ps
          [configInv ps false, uploadInv ps, configInv ps true, uploadInv ps]
          sr.events purgeOk
      else ⟨1, [configInv ps false, uploadInv ps, configInv ps true, uploadInv ps], sr.events⟩

/-- The argv of each coscmd upload invocation in a command trace, in
order. -/
def uploadsOf : List Invocation → List (List String)
  | [] => []
  | i :: rest =>
    if i.argv.take 2 = ["coscmd", "upload"] then i.argv :: uploadsOf rest
    else uploadsOf rest

/-- Whether two entries have the same type (both regular files, or both
directories), irrespective of file content. -/
def sameType : Entry → Entry → Bool
  | Entry.file _, Entry.file _ => true
  | Entry.dir, Entry.dir => true
  | _, _ => false

/-- Concrete environment for witnesses: every required input present,
the optional ones absent. -/
def envW : String → String := fun n =>
  if n = "INPUT_SECRET_ID" then "sid"
  else if n = "INPUT_SECRET_KEY" then "sk"
  else if n = "INPUT_REGION" then "ap-guangzhou"
  else if n = "INPUT_BUCKET" then "releases-1250000000"
  else if n = "INPUT_PREFIX" then "deploy"
  else if n = "INPUT_ARTIFACTS" then "a.txt"
  else ""

/-- Concrete glob oracle: the pattern a.txt resolves to the workspace
file ws/a.txt, everything else matches nothing. -/
def globW : String → List (List String) := fun pat =>
  if pat = "a.txt" then [["ws", "a.txt"]] else []

/-- Concrete workspace filesystem: the root directory ws containing the
single file a.txt. -/
def fsW : FileSys := [(["ws"], Entry.dir), (["ws", "a.txt"], Entry.file "hello")]

/-- Concrete workspace root. -/
def rootW : List String := ["ws"]

/-- The prepared state of a run over envW, globW, fsW, rootW. -/
def psW : Prepared :=
  ⟨"sid", "sk", "ap-guangzhou", "releases-1250000000", "deploy/", "", false,
   ["ws"], [["ws", "a.txt"]]⟩

/-- The staging tree produced by staging psW.paths from the empty tree. -/
def stW : Staging := [(["a.txt"], Entry.file "hello"), ([], Entry.dir)]

/-- Environment for the C8 witness: like envW but with a flush target. -/
def envW8 : String → String := fun n =>
  if n = "INPUT_FLUSH_URL" then "https://mirror.example.com/deploy/" else envW n

/-- The prepared state of a run over envW8. -/
def psW8 : Prepared :=
  ⟨"sid", "sk", "ap-guangzhou", "releases-1250000000", "deploy/",
   "https://mirror.example.com/deploy/", false, ["ws"], [["ws", "a.txt"]]⟩

/-- Environment for the C2 witness: an artifacts pattern nothing
matches. -/
def envW2 : String → String := fun n =>
  if n = "INPUT_ARTIFACTS" then "dist/*.bin" else envW n

/-- Environment for the C9 witness: an artifacts value that normalizes
to an empty pattern list. -/
def envW9 : String → String := fun n =>
  if n = "INPUT_ARTIFACTS" then " , ,\n  " else envW n

/-- Environment for the C4 counterexample: one workspace file plus one
pattern whose glob match resolves outside the workspace. -/
def envC4 : String → String := fun n =>
  if n = "INPUT_ARTIFACTS" then "a.txt,../../etc/x" else envW n

/-- Glob oracle for the C4 counterexample: the second pattern resolves
to an absolute path outside the workspace root. -/
def globC4 : String → List (List String) := fun pat =>
  if pat = "a.txt" then [["ws", "a.txt"]]
  else if pat = "../../etc/x" then [["etc", "x"]]
  else []

/-- The prepared state of the C4 counterexample run. -/
def psC4 : Prepared :=
  ⟨"sid", "sk", "ap-guangzhou", "releases-1250000000", "deploy/", "", false,
   ["ws"], [["ws", "a.txt"], ["etc", "x"]]⟩

/-- Claim C10: prefix normalization always produces a string ending in
the separator "/", it is idempotent, and it is the identity on strings
already ending in "/". -/
theorem claim_c10_normalizePfx_idem (p : String) :
    (normalizePfx p).data.getLast? = some '/' ∧
    normalizePfx (normalizePfx p) = normalizePfx p ∧
    (p.data.getLast? = some '/' → normalizePfx p = p) := by
  have hslash : (p ++ "/").data.getLast? = some '/' := by
    rw [String.data_append]
    exact List.getLast?_concat _
  unfold normalizePfx
  by_cases h : p.data.getLast? = some '/'
  · simp [h]
  · rw [if_neg h]
    refine ⟨hslash, ?_, fun hc => absurd hc h⟩
    rw [if_pos hslash]

/-- Witness for claim C10 at the concrete inputs "deploy" and "a/". -/
theorem claim_c10_witness :
    (normalizePfx "deploy").data.getLast? = some '/' ∧
    normalizePfx (normalizePfx "deploy") = normalizePfx "deploy" ∧
    normalizePfx "a/" = "a/" :=
  ⟨(claim_c10_normalizePfx_idem "deploy").1,
   (claim_c10_normalizePfx_idem "deploy").2.1,
   (claim_c10_normalizePfx_idem "a/").2.2 (by decide)⟩

/-- Counterexample to claim C6 as stated: the claim says parse_bool
returns true exactly when the string is case-insensitively one of
true/1/yes/y, but the code also strips surrounding whitespace, so
" true" (with a leading space) parses to true although its
case-folding is not in the set. -/
theorem claim_c6_counterexample :
    parse_bool " true" = Except.ok true ∧ pyLower " true" ∉ ["true", "1", "yes", "y"] :=
  ⟨rfl, by decide⟩

/-- Claim C6 (amended): parse_bool returns true exactly when the string,
stripped of surrounding whitespace, is case-insensitively one of
true/1/yes/y; false exactly when the stripped string is
case-insensitively one of false/0/no/n or is empty; and it errors
(fatal exit 1) on every other string. -/
theorem claim_c6_parse_bool_cases (val : String) :
    (parse_bool val = Except.ok true ↔ pyLower (pyStrip val) ∈ ["true", "1", "yes", "y"]) ∧
    (parse_bool val = Except.ok false ↔ pyLower (pyStrip val) ∈ ["false", "0", "no", "n", ""]) ∧
    ((∃ e, parse_bool val = Except.error e) ↔
      (pyLower (pyStrip val) ∉ ["true", "1", "yes", "y"] ∧
       pyLower (pyStrip val) ∉ ["false", "0", "no", "n", ""])) := by
  have hdisj : pyLower (pyStrip val) ∈ ["true", "1", "yes", "y"] →
      pyLower (pyStrip val) ∉ ["false", "0", "no", "n", ""] := by
    intro h1 h2
    simp only [List.mem_cons, List.not_mem_nil, or_false] at h1 h2
    rcases h1 with h | h | h | h <;> rcases h2 with g | g | g | g | g <;>
      (rw [h] at g; exact absurd g (by decide))
  by_cases h1 : pyLower (pyStrip val) ∈ ["true", "1", "yes", "y"]
  · have h2 := hdisj h1
    simp [parse_bool, h1, h2]
  · by_cases h2 : pyLower (pyStrip val) ∈ ["false", "0", "no", "n", ""]
    · simp [parse_bool, h1, h2]
    · simp [parse_bool, h1, h2]


/-- Lookup after consing one binding. -/
theorem lookupFS_cons (r : List String) (e : Entry) (st : Staging) (q : List String) :
    lookupFS ((r, e) :: st) q = if r = q then some e else lookupFS st q := rfl

/-- sameType is reflexive. -/
theorem sameType_refl (e : Entry) : sameType e e = true := by
  cases e <;> rfl

/-- sameType is transitive. -/
theorem sameType_trans (a b c : Entry) (h1 : sameType a b = true)
    (h2 : sameType b c = true) : sameType a c = true := by
  cases a <;> cases b <;> cases c <;> simp_all [sameType]

/-- Claim C3: staging the same regular file twice (overlapping glob
patterns) copies it exactly once: the first pass stores the file content
at its workspace-relative destination and logs one copy, and a second
pass over the same path is skipped without error, leaving the staging
tree (hence the staged content) unchanged and logging nothing. -/
theorem claim_c3_overlap_staged_once
    (fs : FileSys) (cwd p rel : List String) (st st1 : Staging)
    (ev : List StageEv) (c : String)
    (hfs : lookupFS fs p = some (Entry.file c))
    (hrel : relativeTo p cwd = some rel)
    (hnew : lookupFS st rel = none)
    (h1 : stageOne fs cwd p st = Except.ok (st1, ev)) :
    lookupFS st1 rel = some (Entry.file c) ∧
    ev = [StageEv.stagedFile rel] ∧
    stageOne fs cwd p st1 = Except.ok (st1, []) := by
  unfold stageOne at h1 ⊢
  simp only [hrel, hfs, hnew] at h1 ⊢
  cases hmk : mkdirList st (properPrefixes rel) with
  | error e => rw [hmk] at h1; cases h1
  | ok st2 =>
    rw [hmk] at h1
    simp only [Except.ok.injEq, Prod.mk.injEq] at h1
    obtain ⟨hst, hev⟩ := h1
    subst hst
    subst hev
    have hl : lookupFS ((rel, Entry.file c) :: st2) rel = some (Entry.file c) := by
      rw [lookupFS_cons, if_pos rfl]
    refine ⟨hl, rfl, ?_⟩
    rw [hl]

/-- Creating parent directories never touches an existing binding. -/
theorem mkdirList_preserve (l : List (List String)) (st st1 : Staging)
    (h : mkdirList st l = Except.ok st1) (q : List String) (e : Entry)
    (hq : lookupFS st q = some e) : lookupFS st1 q = some e := by
  induction l generalizing st with
  | nil =>
    unfold mkdirList at h
    injection h with h2
    subst h2
    exact hq
  | cons q0 qs ih =>
    unfold mkdirList at h
    cases hl : lookupFS st q0 with
    | none =>
      rw [hl] at h
      have hne : ¬ q0 = q := by
        intro hqq
        rw [hqq, hq] at hl
        cases hl
      exact ih _ h (by rw [lookupFS_cons, if_neg hne]; exact hq)
    | some e0 =>
      cases e0 with
      | file c => rw [hl] at h; cases h
      | dir => rw [hl] at h; exact ih _ h hq

/-- Equation lemma: merging no entries is the identity. -/
theorem copyMerge_nil (st : Staging) : copyMerge st [] = Except.ok st := rfl

/-- Equation lemma: merging one entry then the rest. -/
theorem copyMerge_cons (st : Staging) (qe : List String × Entry)
    (rest : List (List String × Entry)) :
    copyMerge st (qe :: rest) =
      match copyOne st qe.1 qe.2 with
      | Except.error er => Except.error er
      | Except.ok st2 => copyMerge st2 rest := rfl

/-- One copytree entry copy preserves the type of every existing
binding. -/
theorem copyOne_types (st st1 : Staging) (q0 : List String) (e0 : Entry)
    (h : copyOne st q0 e0 = Except.ok st1) (q : List String) (e : Entry)
    (hq : lookupFS st q = some e) :
    ∃ e2, lookupFS st1 q = some e2 ∧ sameType e e2 = true := by
  unfold copyOne at h
  cases hl : lookupFS st q0 with
  | none =>
    rw [hl] at h
    injection h with h2
    subst h2
    have hne : ¬ q0 = q := by
      intro hqq
      rw [hqq, hq] at hl
      cases hl
    exact ⟨e, by rw [lookupFS_cons, if_neg hne]; exact hq, sameType_refl e⟩
  | some ex =>
    cases ex with
    | dir =>
      rw [hl] at h
      cases e0 with
      | file c => cases h
      | dir =>
        injection h with h2
        subst h2
        exact ⟨e, hq, sameType_refl e⟩
    | file cx =>
      rw [hl] at h
      cases e0 with
      | dir => cases h
      | file c =>
        injection h with h2
        subst h2
        by_cases hqq : q0 = q
        · subst hqq
          rw [hq] at hl
          injection hl with hl2
          refine ⟨Entry.file c, by rw [lookupFS_cons, if_pos rfl], ?_⟩
          rw [hl2]
          rfl
        · exact ⟨e, by rw [lookupFS_cons, if_neg hqq]; exact hq, sameType_refl e⟩

/-- The copytree merge preserves the type of every existing binding: a
file destination stays a file (content may be overwritten) and a
directory destination stays a directory. -/
theorem copyMerge_types (items : List (List String × Entry)) (st st1 : Staging)
    (h : copyMerge st items = Except.ok st1) (q : List String) (e : Entry)
    (hq : lookupFS st q = some e) :
    ∃ e2, lookupFS st1 q = some e2 ∧ sameType e e2 = true := by
  induction items generalizing st q e with
  | nil =>
    rw [copyMerge_nil] at h
    injection h with h2
    subst h2
    exact ⟨e, hq, sameType_refl e⟩
  | cons qe rest ih =>
    rw [copyMerge_cons] at h
    cases hc : copyOne st qe.1 qe.2 with
    | error er => rw [hc] at h; cases h
    | ok stA =>
      simp only [hc] at h
      obtain ⟨eA, heA, htA⟩ := copyOne_types st stA qe.1 qe.2 hc q e hq
      obtain ⟨e2, he2, ht2⟩ := ih stA h q eA heA
      exact ⟨e2, he2, sameType_trans e eA e2 htA ht2⟩

/-- One staging step preserves the type of every existing binding in the
staging tree. -/
theorem stageOne_types (fs : FileSys) (cwd p : List String) (st st1 : Staging)
    (ev : List StageEv) (h : stageOne fs cwd p st = Except.ok (st1, ev))
    (q : List String) (e : Entry) (hq : lookupFS st q = some e) :
    ∃ e2, lookupFS st1 q = some e2 ∧ sameType e e2 = true := by
  unfold stageOne at h
  cases hrel : relativeTo p cwd with
  | none => rw [hrel] at h; cases h
  | some rel =>
    simp only [hrel] at h
    cases hfs : lookupFS fs p with
    | none => simp only [hfs] at h; cases h
    | some ef =>
      simp only [hfs] at h
      cases ef with
      | dir =>
        cases hsr : lookupFS st rel with
        | some er =>
          cases er with
          | file c => simp only [hsr] at h; cases h
          | dir =>
            simp only [hsr] at h
            cases hmk : mkdirList st (properPrefixes rel) with
            | error er2 => simp only [hmk] at h; cases h
            | ok stA =>
              simp only [hmk] at h
              cases hcm : copyMerge stA (subtreeOf fs p rel) with
              | error er3 => simp only [hcm] at h; cases h
              | ok stB =>
                simp only [hcm, Except.ok.injEq, Prod.mk.injEq] at h
                obtain ⟨hst, -⟩ := h
                subst hst
                exact copyMerge_types (subtreeOf fs p rel) stA stB hcm q e
                  (mkdirList_preserve (properPrefixes rel) st stA hmk q e hq)
        | none =>
          simp only [hsr] at h
          cases hmk : mkdirList st (properPrefixes rel) with
          | error er2 => simp only [hmk] at h; cases h
          | ok stA =>
            simp only [hmk] at h
            cases hcm : copyMerge stA (subtreeOf fs p rel) with
            | error er3 => simp only [hcm] at h; cases h
            | ok stB =>
              simp only [hcm, Except.ok.injEq, Prod.mk.injEq] at h
              obtain ⟨hst, -⟩ := h
              subst hst
              exact copyMerge_types (subtreeOf fs p rel) stA stB hcm q e
                (mkdirList_preserve (properPrefixes rel) st stA hmk q e hq)
      | file c =>
        cases hsr : lookupFS st rel with
        | some er =>
          cases er with
          | file cf =>
            simp only [hsr, Except.ok.injEq, Prod.mk.injEq] at h
            obtain ⟨hst, -⟩ := h
            subst hst
            exact ⟨e, hq, sameType_refl e⟩
          | dir => simp only [hsr] at h; cases h
        | none =>
          simp only [hsr] at h
          cases hmk : mkdirList st (properPrefixes rel) with
          | error er2 => simp only [hmk] at h; cases h
          | ok stA =>
            simp only [hmk, Except.ok.injEq, Prod.mk.injEq] at h
            obtain ⟨hst, -⟩ := h
            subst hst
            have hne : ¬ rel = q := by
              intro hqq
              rw [hqq, hq] at hsr
              cases hsr
            refine ⟨e, ?_, sameType_refl e⟩
            rw [lookupFS_cons, if_neg hne]
            exact mkdirList_preserve (properPrefixes rel) st stA hmk q e hq

/-- Equation lemma: staging an empty path list. -/
theorem stagePaths_nil (fs : FileSys) (cwd : List String) (st : Staging) :
    stagePaths fs cwd [] st = ⟨[], Except.ok st⟩ := rfl

/-- Equation lemma: staging one path then the rest. -/
theorem stagePaths_cons (fs : FileSys) (cwd p : List String)
    (rest : List (List String)) (st : Staging) :
    stagePaths fs cwd (p :: rest) st =
      match stageOne fs cwd p st with
      | Except.error e => ⟨[], Except.error e⟩
      | Except.ok pr =>
        ⟨pr.2 ++ (stagePaths fs cwd rest pr.1).events,
         (stagePaths fs cwd rest pr.1).result⟩ := rfl

/-- A whole staging run preserves the type of every binding already in
the staging tree. -/
theorem stagePaths_types (fs : FileSys) (cwd : List String)
    (paths : List (List String)) (st st1 : Staging)
    (h : (stagePaths fs cwd paths st).result = Except.ok st1)
    (q : List String) (e : Entry) (hq : lookupFS st q = some e) :
    ∃ e2, lookupFS st1 q = some e2 ∧ sameType e e2 = true := by
  induction paths generalizing st q e with
  | nil =>
    rw [stagePaths_nil] at h
    injection h with h2
    subst h2
    exact ⟨e, hq, sameType_refl e⟩
  | cons p rest ih =>
    rw [stagePaths_cons] at h
    cases hso : stageOne fs cwd p st with
    | error er => simp only [hso] at h; cases h
    | ok pr =>
      simp only [hso] at h
      obtain ⟨eA, heA, htA⟩ := stageOne_types fs cwd p st pr.1 pr.2 (by rw [hso]) q e hq
      obtain ⟨e2, he2, ht2⟩ := ih pr.1 h q eA heA
      exact ⟨e2, he2, sameType_trans e eA e2 htA ht2⟩

/-- Claim C5: throughout staging no staged destination ever changes type
between file and directory.  First conjunct: a successful staging run
maps every pre-existing binding to a binding of the same type (files may
be re-copied, directories merged, but never swapped).  Second and third
conjuncts: whenever a directory is staged where a file is already staged,
or a file is staged where a directory is already staged, the step is a
fatal collision error() instead of an overwrite. -/
theorem claim_c5_no_type_change (fs : FileSys) (cwd : List String)
    (paths : List (List String)) (st st1 : Staging)
    (h : (stagePaths fs cwd paths st).result = Except.ok st1) :
    (∀ q e, lookupFS st q = some e →
      ∃ e2, lookupFS st1 q = some e2 ∧ sameType e e2 = true) ∧
    (∀ p rel st0 c, relativeTo p cwd = some rel → lookupFS fs p = some Entry.dir →
      lookupFS st0 rel = some (Entry.file c) →
      stageOne fs cwd p st0 =
        Except.error "Collision while staging directory (file already staged here)") ∧
    (∀ p rel st0 c, relativeTo p cwd = some rel →
      lookupFS fs p = some (Entry.file c) → lookupFS st0 rel = some Entry.dir →
      stageOne fs cwd p st0 =
        Except.error "Collision while staging file (directory already staged here)") := by
  refine ⟨fun q e hq => stagePaths_types fs cwd paths st st1 h q e hq, ?_, ?_⟩
  · intro p rel st0 c hrel hfs hst
    unfold stageOne
    simp only [hrel, hfs, hst]
  · intro p rel st0 c hrel hfs hst
    unfold stageOne
    simp only [hrel, hfs, hst]

/-- Witness for claim C3: staging ws/a.txt from an empty tree stores the
file once with its content, and staging the same path again is a no-op
without error. -/
theorem claim_c3_witness :
    lookupFS stW ["a.txt"] = some (Entry.file "hello") ∧
    stageOne fsW ["ws"] ["ws", "a.txt"] [] = Except.ok (stW, [StageEv.stagedFile ["a.txt"]]) ∧
    stageOne fsW ["ws"] ["ws", "a.txt"] stW = Except.ok (stW, []) := by
  have h := claim_c3_overlap_staged_once fsW ["ws"] ["ws", "a.txt"] ["a.txt"] [] stW
    [StageEv.stagedFile ["a.txt"]] "hello" rfl rfl rfl rfl
  exact ⟨h.1, rfl, h.2.2⟩

/-- Witness for claim C5: staging ws/a.txt into a tree already holding
the directory b keeps a binding of directory type at b. -/
theorem claim_c5_witness :
    (stagePaths fsW ["ws"] [["ws", "a.txt"]] [(["b"], Entry.dir)]).result
      = Except.ok [(["a.txt"], Entry.file "hello"), ([], Entry.dir), (["b"], Entry.dir)] ∧
    (∃ e2, lookupFS [(["a.txt"], Entry.file "hello"), ([], Entry.dir), (["b"], Entry.dir)] ["b"]
      = some e2 ∧ sameType Entry.dir e2 = true) :=
  ⟨rfl,
   (claim_c5_no_type_change fsW ["ws"] [["ws", "a.txt"]] [(["b"], Entry.dir)]
      [(["a.txt"], Entry.file "hello"), ([], Entry.dir), (["b"], Entry.dir)] rfl).1
     ["b"] Entry.dir rfl⟩

/-- Any resolved path outside the working root makes the whole staging
run fail (either at that path, or already at an earlier fatal error). -/
theorem stagePaths_err_of_outside (fs : FileSys) (cwd : List String)
    (paths : List (List String)) (p : List String)
    (hmem : p ∈ paths) (hout : relativeTo p cwd = none) (st : Staging) :
    ∃ msg, (stagePaths fs cwd paths st).result = Except.error msg := by
  induction paths generalizing st with
  | nil => cases hmem
  | cons p0 rest ih =>
    rw [stagePaths_cons]
    cases hso : stageOne fs cwd p0 st with
    | error er => exact ⟨er, rfl⟩
    | ok pr =>
      rcases List.mem_cons.mp hmem with hpeq | hmem2
      · subst hpeq
        unfold stageOne at hso
        rw [hout] at hso
        cases hso
      · obtain ⟨msg, hmsg⟩ := ih hmem2 pr.1
        exact ⟨msg, hmsg⟩

/-- Counterexample to claim C4 as stated: in a run whose second resolved
path lies outside the workspace root, staging does fail fatally (exit 1)
and nothing is uploaded, but the claim's "nothing is copied into the
staging tree" is false: the first path has already been copied into the
(ephemeral) staging tree before the offending path is reached. -/
theorem claim_c4_counterexample :
    prepare envC4 globC4 fsW rootW = some psC4 ∧
    ["etc", "x"] ∈ psC4.paths ∧
    relativeTo ["etc", "x"] psC4.cwd = none ∧
    (runMain envC4 globC4 fsW rootW true true true).exitCode = 1 ∧
    (runMain envC4 globC4 fsW rootW true true true).staged
      = [StageEv.stagedFile ["a.txt"]] :=
  ⟨rfl, by decide, rfl, rfl, rfl⟩

/-- Claim C4 (amended): for every resolved path outside the effective
working root, the staging phase fails fatally, the run exits 1, and no
upload is ever invoked (the temporary staging tree is discarded); paths
listed before the offending one may however already have been copied
into that ephemeral tree. -/
theorem claim_c4_outside_path_fatal (env : String → String)
    (globFn : String → List (List String)) (fs : FileSys) (root : List String)
    (ps : Prepared) (p : List String) (ok1 ok2 purgeOk : Bool)
    (hp : prepare env globFn fs root = some ps)
    (hmem : p ∈ ps.paths) (hout : relativeTo p ps.cwd = none) :
    (∃ msg, (stagePaths fs ps.cwd ps.paths []).result = Except.error msg) ∧
    (runMain env globFn fs root ok1 ok2 purgeOk).exitCode = 1 ∧
    uploadsOf (runMain env globFn fs root ok1 ok2 purgeOk).cmds = [] := by
  obtain ⟨msg, hmsg⟩ := stagePaths_err_of_outside fs ps.cwd ps.paths p hmem hout []
  refine ⟨⟨msg, hmsg⟩, ?_, ?_⟩ <;>
    simp [runMain, hp, hmsg, uploadsOf, configInv, configure_coscmd]

/-- Witness for the amended claim C4, at the concrete counterexample
run. -/
theorem claim_c4_witness :
    (∃ msg, (stagePaths fsW psC4.cwd psC4.paths []).result = Except.error msg) ∧
    (runMain envC4 globC4 fsW rootW true true true).exitCode = 1 ∧
    uploadsOf (runMain envC4 globC4 fsW rootW true true true).cmds = [] :=
  claim_c4_outside_path_fatal envC4 globC4 fsW rootW psC4 ["etc", "x"] true true true
    rfl (by decide) rfl

/-- resolve_paths fails whenever some pattern in the list has zero glob
matches (either at that pattern or already at an earlier one). -/
theorem resolve_paths_err_of_empty (globFn : String → List (List String))
    (pats : List String) (pat : String) (hmem : pat ∈ pats)
    (hglob : globFn pat = []) :
    ∃ msg, resolve_paths globFn pats = Except.error msg := by
  induction pats with
  | nil => cases hmem
  | cons p0 rest ih =>
    unfold resolve_paths
    by_cases h0 : globFn p0 = []
    · refine ⟨"No files matched pattern: " ++ p0, ?_⟩
      simp [h0]
    · rcases List.mem_cons.mp hmem with he | hm
      · subst he; exact absurd hglob h0
      · obtain ⟨msg, hmsg⟩ := ih hm
        refine ⟨msg, ?_⟩
        simp [h0, hmsg]

/-- A successfully read required input with no default is exactly the
(non-empty) raw environment value. -/
theorem get_input_required_eq (env : String → String) (nm v : String)
    (h : get_input env nm true none = Except.ok v) :
    v = env ("INPUT_" ++ pyUpper nm) ∧ ¬ v = "" := by
  unfold get_input at h
  by_cases hv : env ("INPUT_" ++ pyUpper nm) = ""
  · simp [hv] at h
  · simp [hv] at h
    subst h
    exact ⟨rfl, hv⟩

/-- If, whatever value the artifacts input was read as, the pattern list
is empty or resolution fails, then the whole preparation phase fails:
the run exits before any external command or staging copy. -/
theorem prepare_none_of_patterns (env : String → String)
    (globFn : String → List (List String)) (fs : FileSys) (root : List String)
    (hpat : ∀ artifacts_raw, get_input env "artifacts" true none = Except.ok artifacts_raw →
      (split_patterns artifacts_raw = [] ∨
       ∃ msg, resolve_paths globFn (split_patterns artifacts_raw) = Except.error msg)) :
    prepare env globFn fs root = none := by
  unfold prepare
  split
  · rfl
  split
  · rfl
  split
  · rfl
  split
  · rfl
  split
  · rfl
  split
  · rfl
  rename_i artifacts_raw h6
  split
  · rfl
  split
  · rfl
  split
  · rfl
  split
  · rfl
  split
  · rfl
  rcases hpat artifacts_raw h6 with hempty | ⟨msg, hmsg⟩
  · simp [hempty]
  · by_cases hl : split_patterns artifacts_raw = []
    · simp [hl]
    · simp [hl, hmsg]

/-- Claim C2: if any single artifacts pattern expands to zero glob
matches, the run terminates fatally (exit code 1) before any external
command is invoked and before any file or directory is staged
(fail-fast over the whole pattern list, no partial success). -/
theorem claim_c2_glob_failfast (env : String → String)
    (globFn : String → List (List String)) (fs : FileSys) (root : List String)
    (pat : String) (ok1 ok2 purgeOk : Bool)
    (hmem : pat ∈ split_patterns (env "INPUT_ARTIFACTS"))
    (hglob : globFn pat = []) :
    runMain env globFn fs root ok1 ok2 purgeOk = ⟨1, [], []⟩ := by
  have hpre : prepare env globFn fs root = none := by
    apply prepare_none_of_patterns
    intro artifacts_raw h6
    obtain ⟨haeq, -⟩ := get_input_required_eq env "artifacts" artifacts_raw h6
    right
    apply resolve_paths_err_of_empty globFn _ pat _ hglob
    rw [haeq]
    exact hmem
  unfold runMain
  rw [hpre]

/-- Witness for claim C2: the pattern dist/*.bin matches nothing, so the
run exits 1 with no commands and no staging. -/
theorem claim_c2_witness :
    "dist/*.bin" ∈ split_patterns (envW2 "INPUT_ARTIFACTS") ∧
    globW "dist/*.bin" = [] ∧
    runMain envW2 globW fsW rootW true true true = ⟨1, [], []⟩ :=
  ⟨by decide, rfl,
   claim_c2_glob_failfast envW2 globW fsW rootW "dist/*.bin" true true true
     (by decide) rfl⟩

/-- Claim C9 (implicit): if the artifacts input normalizes to an empty
pattern list (only commas, newlines and whitespace), the run terminates
fatally (exit 1) with no external command, no staging, and independently
of the glob oracle (so before any glob expansion). -/
theorem claim_c9_empty_patterns (env : String → String) (fs : FileSys)
    (root : List String) (ok1 ok2 purgeOk : Bool)
    (hsplit : split_patterns (env "INPUT_ARTIFACTS") = []) :
    ∀ globFn : String → List (List String),
      runMain env globFn fs root ok1 ok2 purgeOk = ⟨1, [], []⟩ := by
  intro globFn
  have hpre : prepare env globFn fs root = none := by
    apply prepare_none_of_patterns
    intro artifacts_raw h6
    obtain ⟨haeq, -⟩ := get_input_required_eq env "artifacts" artifacts_raw h6
    left
    rw [haeq]
    exact hsplit
  unfold runMain
  rw [hpre]

/-- Witness for claim C9: an artifacts value of commas, spaces and a
newline yields an empty pattern list and a fatal empty run. -/
theorem claim_c9_witness :
    split_patterns (envW9 "INPUT_ARTIFACTS") = [] ∧
    runMain envW9 globW fsW rootW true true true = ⟨1, [], []⟩ :=
  ⟨by decide,
   claim_c9_empty_patterns envW9 fsW rootW true true true (by decide) globW⟩

/-- uploadsOf ignores the empty trace. -/
theorem uploadsOf_nil : uploadsOf [] = [] := rfl

/-- Equation lemma for uploadsOf on a cons. -/
theorem uploadsOf_cons (i : Invocation) (rest : List Invocation) :
    uploadsOf (i :: rest) =
      if i.argv.take 2 = ["coscmd", "upload"] then i.argv :: uploadsOf rest
      else uploadsOf rest := rfl

/-- uploadsOf distributes over concatenation. -/
theorem uploadsOf_append (l1 l2 : List Invocation) :
    uploadsOf (l1 ++ l2) = uploadsOf l1 ++ uploadsOf l2 := by
  induction l1 with
  | nil => rfl
  | cons i rest ih =>
    rw [List.cons_append, uploadsOf_cons, uploadsOf_cons]
    by_cases hc : i.argv.take 2 = ["coscmd", "upload"] <;> simp [hc, ih]

/-- A coscmd config invocation is not an upload invocation. -/
theorem uploadsOf_cons_config (ps : Prepared) (b : Bool) (rest : List Invocation) :
    uploadsOf (configInv ps b :: rest) = uploadsOf rest := by
  rw [uploadsOf_cons,
    show (configInv ps b).argv.take 2 = ["coscmd", "config"] from rfl,
    if_neg (by decide)]

/-- The tccli purge invocation is not an upload invocation. -/
theorem uploadsOf_cons_purge (ps : Prepared) (rest : List Invocation) :
    uploadsOf (purgeInv ps :: rest) = uploadsOf rest := by
  rw [uploadsOf_cons,
    show (purgeInv ps).argv.take 2 = ["tccli", "cdn"] from rfl,
    if_neg (by decide)]

/-- A coscmd upload invocation contributes its argv. -/
theorem uploadsOf_cons_upload (ps : Prepared) (rest : List Invocation) :
    uploadsOf (uploadInv ps :: rest) = (uploadInv ps).argv :: uploadsOf rest := by
  rw [uploadsOf_cons,
    if_pos (show (uploadInv ps).argv.take 2 = ["coscmd", "upload"] from rfl)]

/-- The commands of the purge phase: the given trace, plus the tccli
purge exactly when a flush target is present. -/
theorem purgePhase_cmds (ps : Prepared) (cmds : List Invocation)
    (evs : List StageEv) (purgeOk : Bool) :
    (purgePhase ps cmds evs purgeOk).cmds
      = cmds ++ (if ps.flush_url = "" then [] else [purgeInv ps]) := by
  unfold purgePhase
  by_cases hf : ps.flush_url = "" <;> cases purgeOk <;> simp [hf]

/-- The exit code of the purge phase. -/
theorem purgePhase_exit (ps : Prepared) (cmds : List Invocation)
    (evs : List StageEv) (purgeOk : Bool) :
    (purgePhase ps cmds evs purgeOk).exitCode
      = (if ps.flush_url = "" then 0 else if purgeOk then 0 else 1) := by
  unfold purgePhase
  by_cases hf : ps.flush_url = "" <;> cases purgeOk <;> simp [hf]

/-- runMain when preparation and staging succeed and the first upload
succeeds. -/
theorem runMain_first_ok (env : String → String)
    (globFn : String → List (List String)) (fs : FileSys) (root : List String)
    (ps : Prepared) (st : Staging) (ok2 purgeOk : Bool)
    (hp : prepare env globFn fs root = some ps)
    (hs : (stagePaths fs ps.cwd ps.paths []).result = Except.ok st) :
    runMain env globFn fs root true ok2 purgeOk
      = purgePhase ps [configInv ps false, uploadInv ps]
          (stagePaths fs ps.cwd ps.paths []).events purgeOk := by
  simp [runMain, hp, hs]

/-- runMain when the first upload fails and the accelerate retry
succeeds. -/
theorem runMain_retry_ok (env : String → String)
    (globFn : String → List (List String)) (fs : FileSys) (root : List String)
    (ps : Prepared) (st : Staging) (purgeOk : Bool)
    (hp : prepare env globFn fs root = some ps)
    (hs : (stagePaths fs ps.cwd ps.paths []).result = Except.ok st) :
    runMain env globFn fs root false true purgeOk
      = purgePhase ps
          [configInv ps false, uploadInv ps, configInv ps true, uploadInv ps]
          (stagePaths fs ps.cwd ps.paths []).events purgeOk := by
  simp [runMain, hp, hs]

/-- runMain when both uploads fail: exit 1 after exactly two uploads. -/
theorem runMain_both_fail (env : String → String)
    (globFn : String → List (List String)) (fs : FileSys) (root : List String)
    (ps : Prepared) (st : Staging) (purgeOk : Bool)
    (hp : prepare env globFn fs root = some ps)
    (hs : (stagePaths fs ps.cwd ps.paths []).result = Except.ok st) :
    runMain env globFn fs root false false purgeOk
      = ⟨1, [configInv ps false, uploadInv ps, configInv ps true, uploadInv ps],
         (stagePaths fs ps.cwd ps.paths []).events⟩ := by
  simp [runMain, hp, hs]

/-- The deleteRemote field of a successful preparation is exactly the
parse of the delete_remote input (read with its "false" default). -/
theorem prepare_deleteRemote_eq (env : String → String)
    (globFn : String → List (List String)) (fs : FileSys) (root : List String)
    (ps : Prepared) (hp : prepare env globFn fs root = some ps) :
    Except.bind (get_input env "delete_remote" false (some "false")) parse_bool
      = Except.ok ps.deleteRemote := by
  unfold prepare at hp
  split at hp
  · exact Option.noConfusion hp
  split at hp
  · exact Option.noConfusion hp
  split at hp
  · exact Option.noConfusion hp
  split at hp
  · exact Option.noConfusion hp
  split at hp
  · exact Option.noConfusion hp
  split at hp
  · exact Option.noConfusion hp
  rename_i artifacts_raw h6
  split at hp
  · exact Option.noConfusion hp
  split at hp
  · exact Option.noConfusion hp
  rename_i deleteRaw h8
  split at hp
  · exact Option.noConfusion hp
  rename_i deleteRemote h9
  split at hp
  · exact Option.noConfusion hp
  split at hp
  · exact Option.noConfusion hp
  by_cases hpl : split_patterns artifacts_raw = []
  · simp only [hpl] at hp
    exact Option.noConfusion hp
  · simp only [hpl] at hp
    split at hp
    · exact Option.noConfusion hp
    split at hp
    · exact Option.noConfusion hp
    injection hp with hps
    subst hps
    rw [h8]
    simpa [Except.bind] using h9

/-- Claim C1: when the first (regional) upload exits non-zero, the
client is reconfigured for the accelerate endpoint and the identical
upload argv is invoked exactly once more (two upload invocations in
total, whatever the retry outcome); when the second attempt also exits
non-zero the run performs exactly regional config, upload, accelerate
config, upload, and terminates with exit code 1 — no third attempt. -/
theorem claim_c1_upload_retry (env : String → String)
    (globFn : String → List (List String)) (fs : FileSys) (root : List String)
    (ps : Prepared) (st : Staging) (ok2 purgeOk : Bool)
    (hp : prepare env globFn fs root = some ps)
    (hs : (stagePaths fs ps.cwd ps.paths []).result = Except.ok st) :
    (∃ u, uploadsOf (runMain env globFn fs root false ok2 purgeOk).cmds = [u, u]) ∧
    configInv ps true ∈ (runMain env globFn fs root false ok2 purgeOk).cmds ∧
    (runMain env globFn fs root false false purgeOk).cmds
      = [configInv ps false, uploadInv ps, configInv ps true, uploadInv ps] ∧
    (runMain env globFn fs root false false purgeOk).exitCode = 1 := by
  have hfail := runMain_both_fail env globFn fs root ps st purgeOk hp hs
  refine ⟨⟨(uploadInv ps).argv, ?_⟩, ?_, by rw [hfail], by rw [hfail]⟩
  · cases ok2 with
    | false =>
      rw [runMain_both_fail env globFn fs root ps st purgeOk hp hs]
      rw [show (⟨1, [configInv ps false, uploadInv ps, configInv ps true, uploadInv ps],
        (stagePaths fs ps.cwd ps.paths []).events⟩ : RunOutcome).cmds
        = [configInv ps false, uploadInv ps, configInv ps true, uploadInv ps] from rfl]
      rw [uploadsOf_cons_config, uploadsOf_cons_upload, uploadsOf_cons_config,
        uploadsOf_cons_upload, uploadsOf_nil]
    | true =>
      rw [runMain_retry_ok env globFn fs root ps st purgeOk hp hs, purgePhase_cmds,
        uploadsOf_append, uploadsOf_cons_config, uploadsOf_cons_upload,
        uploadsOf_cons_config, uploadsOf_cons_upload, uploadsOf_nil]
      by_cases hf : ps.flush_url = ""
      · rw [if_pos hf, uploadsOf_nil, List.append_nil]
      · rw [if_neg hf, uploadsOf_cons_purge, uploadsOf_nil, List.append_nil]
  · cases ok2 with
    | false =>
      rw [runMain_both_fail env globFn fs root ps st purgeOk hp hs]
      simp
    | true =>
      rw [runMain_retry_ok env globFn fs root ps st purgeOk hp hs, purgePhase_cmds]
      simp

/-- Witness for claim C1 on the concrete run: both uploads fail, the run
exits 1 with exactly two identical upload invocations. -/
theorem claim_c1_witness :
    prepare envW globW fsW rootW = some psW ∧
    (stagePaths fsW psW.cwd psW.paths []).result = Except.ok stW ∧
    (∃ u, uploadsOf (runMain envW globW fsW rootW false false true).cmds = [u, u]) ∧
    (runMain envW globW fsW rootW false false true).exitCode = 1 :=
  ⟨rfl, rfl,
   (claim_c1_upload_retry envW globW fsW rootW psW stW false true rfl rfl).1,
   (claim_c1_upload_retry envW globW fsW rootW psW stW false true rfl rfl).2.2.2⟩

/-- The tccli purge invocation never equals a coscmd config invocation. -/
theorem purgeInv_ne_config (ps ps2 : Prepared) (b : Bool) :
    ¬ purgeInv ps = configInv ps2 b := by
  intro h
  have h1 := congrArg (fun i => i.argv.take 1) h
  exact absurd (show (["tccli"] : List String) = ["coscmd"] from h1) (by decide)

/-- The tccli purge invocation never equals a coscmd upload invocation. -/
theorem purgeInv_ne_upload (ps ps2 : Prepared) :
    ¬ purgeInv ps = uploadInv ps2 := by
  intro h
  have h1 := congrArg (fun i => i.argv.take 1) h
  exact absurd (show (["tccli"] : List String) = ["coscmd"] from h1) (by decide)

/-- Claim C7: every upload invocation of a run uses exactly the flag
list recursive-sync, force-yes and (iff delete_remote parsed true) the
delete flag, followed by the staging root and the normalized prefix; at
least one upload happens; the flag list contains the delete flag exactly
when the parsed value is true and always contains -rs and --yes; the
deleteRemote field is exactly the parse of the delete_remote input; and
an absent delete_remote input parses to false (the default). -/
theorem claim_c7_delete_flag (env : String → String)
    (globFn : String → List (List String)) (fs : FileSys) (root : List String)
    (ps : Prepared) (st : Staging) (ok1 ok2 purgeOk : Bool)
    (hp : prepare env globFn fs root = some ps)
    (hs : (stagePaths fs ps.cwd ps.paths []).result = Except.ok st) :
    (∀ u ∈ uploadsOf (runMain env globFn fs root ok1 ok2 purgeOk).cmds,
      u = ["coscmd", "upload"] ++ uploadFlags ps.deleteRemote ++ [".", ps.pfx]) ∧
    uploadsOf (runMain env globFn fs root ok1 ok2 purgeOk).cmds ≠ [] ∧
    (∀ d : Bool, ("--delete" ∈ uploadFlags d ↔ d = true) ∧
      "-rs" ∈ uploadFlags d ∧ "--yes" ∈ uploadFlags d) ∧
    Except.bind (get_input env "delete_remote" false (some "false")) parse_bool
      = Except.ok ps.deleteRemote ∧
    (∀ env2 : String → String, env2 "INPUT_DELETE_REMOTE" = "" →
      Except.bind (get_input env2 "delete_remote" false (some "false")) parse_bool
        = Except.ok false) := by
  have hup : uploadsOf (runMain env globFn fs root ok1 ok2 purgeOk).cmds
      = (uploadInv ps).argv :: (if ok1 then [] else [(uploadInv ps).argv]) := by
    cases ok1 with
    | true =>
      rw [runMain_first_ok env globFn fs root ps st ok2 purgeOk hp hs, purgePhase_cmds,
        uploadsOf_append, uploadsOf_cons_config, uploadsOf_cons_upload, uploadsOf_nil]
      by_cases hf : ps.flush_url = ""
      · rw [if_pos hf, uploadsOf_nil, List.append_nil, if_pos rfl]
      · rw [if_neg hf, uploadsOf_cons_purge, uploadsOf_nil, List.append_nil, if_pos rfl]
    | false =>
      cases ok2 with
      | false =>
        rw [runMain_both_fail env globFn fs root ps st purgeOk hp hs]
        rw [show (⟨1, [configInv ps false, uploadInv ps, configInv ps true, uploadInv ps],
          (stagePaths fs ps.cwd ps.paths []).events⟩ : RunOutcome).cmds
          = [configInv ps false, uploadInv ps, configInv ps true, uploadInv ps] from rfl]
        rw [uploadsOf_cons_config, uploadsOf_cons_upload, uploadsOf_cons_config,
          uploadsOf_cons_upload, uploadsOf_nil]
        simp
      | true =>
        rw [runMain_retry_ok env globFn fs root ps st purgeOk hp hs, purgePhase_cmds,
          uploadsOf_append, uploadsOf_cons_config, uploadsOf_cons_upload,
          uploadsOf_cons_config, uploadsOf_cons_upload, uploadsOf_nil]
        by_cases hf : ps.flush_url = ""
        · rw [if_pos hf, uploadsOf_nil, List.append_nil]
          simp
        · rw [if_neg hf, uploadsOf_cons_purge, uploadsOf_nil, List.append_nil]
          simp
  refine ⟨?_, ?_, ?_, prepare_deleteRemote_eq env globFn fs root ps hp, ?_⟩
  · intro u hu
    rw [hup] at hu
    have hu2 : u = (uploadInv ps).argv := by
      cases ok1 <;> simp at hu <;> tauto
    rw [hu2]
    rfl
  · rw [hup]
    exact List.cons_ne_nil _ _
  · intro d
    cases d
    · exact ⟨by decide, by decide, by decide⟩
    · exact ⟨by decide, by decide, by decide⟩
  · intro env2 h2
    have hkey : ("INPUT_" ++ pyUpper "delete_remote") = "INPUT_DELETE_REMOTE" := rfl
    have hgi : get_input env2 "delete_remote" false (some "false") = Except.ok "false" := by
      unfold get_input
      rw [hkey, h2]
      rfl
    rw [hgi]
    rfl

/-- Witness for claim C7 on the concrete run with delete_remote not
supplied: the parsed value defaults to false and each upload argv is the
flag shape without the delete flag. -/
theorem claim_c7_witness :
    prepare envW globW fsW rootW = some psW ∧
    psW.deleteRemote = false ∧
    uploadsOf (runMain envW globW fsW rootW true true true).cmds ≠ [] ∧
    (∀ u ∈ uploadsOf (runMain envW globW fsW rootW true true true).cmds,
      u = ["coscmd", "upload"] ++ uploadFlags psW.deleteRemote ++ [".", psW.pfx]) :=
  ⟨rfl, rfl,
   (claim_c7_delete_flag envW globW fsW rootW psW stW true true true rfl rfl).2.1,
   (claim_c7_delete_flag envW globW fsW rootW psW stW true true true rfl rfl).1⟩

/-- Claim C8: in every run whose upload succeeds (first attempt or the
accelerate retry), the tccli purge invocation — carrying the flush
target and the credential/region environment variables — appears in the
command trace exactly when a non-empty flush target was supplied; and
with an empty flush target the purge is skipped and the run exits 0. -/
theorem claim_c8_purge_iff (env : String → String)
    (globFn : String → List (List String)) (fs : FileSys) (root : List String)
    (ps : Prepared) (st : Staging) (ok1 ok2 purgeOk : Bool)
    (hp : prepare env globFn fs root = some ps)
    (hs : (stagePaths fs ps.cwd ps.paths []).result = Except.ok st)
    (hok : ok1 = true ∨ ok2 = true) :
    (purgeInv ps ∈ (runMain env globFn fs root ok1 ok2 purgeOk).cmds ↔
      ¬ ps.flush_url = "") ∧
    (ps.flush_url = "" → (runMain env globFn fs root ok1 ok2 purgeOk).exitCode = 0) := by
  cases ok1 with
  | true =>
    rw [runMain_first_ok env globFn fs root ps st ok2 purgeOk hp hs]
    refine ⟨?_, fun hf => by rw [purgePhase_exit, if_pos hf]⟩
    rw [purgePhase_cmds]
    by_cases hf : ps.flush_url = "" <;>
      simp [hf, purgeInv_ne_config, purgeInv_ne_upload]
  | false =>
    rcases hok with h1 | h2
    · cases h1
    · subst h2
      rw [runMain_retry_ok env globFn fs root ps st purgeOk hp hs]
      refine ⟨?_, fun hf => by rw [purgePhase_exit, if_pos hf]⟩
      rw [purgePhase_cmds]
      by_cases hf : ps.flush_url = "" <;>
        simp [hf, purgeInv_ne_config, purgeInv_ne_upload]

/-- Witness for claim C8 on two concrete runs: with a flush target the
purge invocation is in the trace; without one the run exits 0. -/
theorem claim_c8_witness :
    prepare envW8 globW fsW rootW = some psW8 ∧
    (purgeInv psW8 ∈ (runMain envW8 globW fsW rootW true true true).cmds ↔
      ¬ psW8.flush_url = "") ∧
    (runMain envW globW fsW rootW true true true).exitCode = 0 :=
  ⟨rfl,
   (claim_c8_purge_iff envW8 globW fsW rootW psW8 stW true true true rfl rfl
      (Or.inl rfl)).1,
   (claim_c8_purge_iff envW globW fsW rootW psW stW true true true rfl rfl
      (Or.inl rfl)).2 rfl⟩
